import Mathlib

set_option maxRecDepth 40000

/-!
Verification model of `benchmark_l0.py`, the EQL benchmark training driver.

Modelling conventions:
* Floating-point values sampled from tensors are modelled by `Flt`: either a
  rational value or `nan`; the arithmetic operations used by the driver
  (`+`, `*`) propagate `nan` exactly as IEEE floats do for those operations.
* The symbolic network, its forward pass, its penalty and the effect of
  `loss.backward(); optimizer.step()` live in modules outside this file's
  source (`utils/symbolic_network.py`, torch); the training-loop model is
  therefore parameterized by an abstract environment `TorchEnv` providing the
  weight state type and those three operations, so that the theorems below
  are about the control flow written in `benchmark_l0.py` itself.
* Randomness (`torch.rand`, `torch.normal`) is modelled by an explicit
  sampler argument.
-/

namespace BenchmarkL0

/-- A sampled floating-point value: a rational number or NaN. -/
inductive Flt where
  | nan : Flt
  | val : ℚ → Flt
deriving DecidableEq

/-- `np.isnan` on a sampled value. -/
def Flt.isNaN : Flt → Bool
  | Flt.nan => true
  | Flt.val _ => false

/-- Float addition; NaN propagates. -/
def Flt.add : Flt → Flt → Flt
  | Flt.val a, Flt.val b => Flt.val (a + b)
  | _, _ => Flt.nan

/-- Float multiplication; NaN propagates (IEEE: x * NaN = NaN). -/
def Flt.mul : Flt → Flt → Flt
  | Flt.val a, Flt.val b => Flt.val (a * b)
  | _, _ => Flt.nan

theorem Flt.isNaN_add_left (a b : Flt) (h : a.isNaN = true) :
    (Flt.add a b).isNaN = true := by
  cases a with
  | nan => cases b <;> rfl
  | val q => simp [Flt.isNaN] at h

theorem Flt.isNaN_val (q : ℚ) : (Flt.val q).isNaN = false := rfl

/-- Model of `generate_data` (benchmark_l0.py lines 39-44).

`x_dim` is the parameter count of `func` (the source computes it with
`len(signature(func).parameters)`, which has no Lean counterpart, so the
arity is passed alongside the function, which here consumes the row as a
list).  `u i j` models the `torch.rand` sample for entry `(i, j)`, a draw
from `[0, 1)`.  The source computes
`x = (range_max - range_min) * torch.rand([N, x_dim]) + range_min` and
`y = [[func(*x_i)] for x_i in x]`. -/
def generate_data (func : List ℚ → ℚ) (x_dim : ℕ) (N : ℕ) (u : ℕ → ℕ → ℚ)
    (range_min range_max : ℚ) : List (List ℚ) × List (List ℚ) :=
  let x := (List.range N).map
    (fun i => (List.range x_dim).map
      (fun j => (range_max - range_min) * u i j + range_min))
  let y := x.map (fun x_i => [func x_i])
  (x, y)

/-- C10: for every function of `d` parameters and every `N ≥ 0`,
`generate_data` returns `x` of shape `(N, d)` with every entry in
`[range_min, range_max)` (given that the interval is nonempty and the
sampler draws from `[0, 1)` as `torch.rand` does), and `y` of shape
`(N, 1)` with `y[i] = [func x[i]]`. -/
theorem c10_generate_data_shapes (func : List ℚ → ℚ) (d N : ℕ)
    (u : ℕ → ℕ → ℚ) (mn mx : ℚ)
    (hu : ∀ i j, 0 ≤ u i j ∧ u i j < 1) (hr : mn < mx) :
    ((generate_data func d N u mn mx).1.length = N)
    ∧ (∀ r ∈ (generate_data func d N u mn mx).1, r.length = d)
    ∧ (∀ r ∈ (generate_data func d N u mn mx).1, ∀ v ∈ r, mn ≤ v ∧ v < mx)
    ∧ ((generate_data func d N u mn mx).2.length = N)
    ∧ (∀ r ∈ (generate_data func d N u mn mx).2, r.length = 1)
    ∧ (∀ i, i < N → ∃ xi, (generate_data func d N u mn mx).1.get? i = some xi
        ∧ (generate_data func d N u mn mx).2.get? i = some [func xi]) := by
  refine ⟨?_, ?_, ?_, ?_, ?_, ?_⟩
  · simp [generate_data]
  · intro r hr'
    simp only [generate_data, List.mem_map] at hr'
    obtain ⟨i, _, rfl⟩ := hr'
    simp
  · intro r hr' v hv
    simp only [generate_data, List.mem_map] at hr'
    obtain ⟨i, _, rfl⟩ := hr'
    simp only [List.mem_map] at hv
    obtain ⟨j, _, rfl⟩ := hv
    have h0 : (0 : ℚ) ≤ mx - mn := by linarith
    have h1 : 0 ≤ (mx - mn) * u i j := mul_nonneg h0 (hu i j).1
    have h2 : (mx - mn) * u i j < (mx - mn) * 1 :=
      mul_lt_mul_of_pos_left (hu i j).2 (by linarith)
    constructor
    · linarith
    · linarith
  · simp [generate_data]
  · intro r hr'
    simp only [generate_data, List.mem_map] at hr'
    obtain ⟨xi, _, rfl⟩ := hr'
    rfl
  · intro i hi
    refine ⟨(List.range d).map (fun j => (mx - mn) * u i j + mn), ?_, ?_⟩
    · show (((List.range N).map _).get? i) = _
      rw [List.get?_map, List.get?_range hi]
      rfl
    · show ((((List.range N).map _).map _).get? i) = _
      rw [List.get?_map, List.get?_map, List.get?_range hi]
      rfl

/-- Witness for C10 at a concrete input: `func` sums its two arguments,
`N = 3`, `d = 2`, the sampler constantly `0`, range `[-1, 1)`. -/
theorem c10_witness :
    ((∀ _i _j : ℕ, (0 : ℚ) ≤ 0 ∧ (0 : ℚ) < 1) ∧ ((-1 : ℚ) < 1))
    ∧ (∀ r ∈ (generate_data (fun l => l.foldr (fun a b => a + b) 0) 2 3
        (fun _ _ => (0 : ℚ)) (-1) 1).1, ∀ v ∈ r, (-1 : ℚ) ≤ v ∧ v < 1) :=
  ⟨⟨fun _ _ => ⟨(by decide : (0 : ℚ) ≤ 0), (by decide : (0 : ℚ) < 1)⟩,
      (by decide : (-1 : ℚ) < 1)⟩,
    (c10_generate_data_shapes (fun l => l.foldr (fun a b => a + b) 0) 2 3
      (fun _ _ => (0 : ℚ)) (-1) 1
      (fun _ _ => ⟨(by decide : (0 : ℚ) ≤ 0), (by decide : (0 : ℚ) < 1)⟩)
      (by decide : (-1 : ℚ) < 1)).2.2.1⟩

/-- A primitive activation function from `utils.functions`, identified by
kind; only the arity matters for the shape bookkeeping modelled in this
file.  The `utils.functions` module is outside this file's source; arities
follow the spec's catalogue (all entries unary except `Product`, which is
binary; a `Constant` unit is counted as arity 1 for slot allocation). -/
inductive PrimFn where
  | constant : PrimFn
  | identity : PrimFn
  | square : PrimFn
  | sin : PrimFn
  | exp : PrimFn
  | sigmoid : PrimFn
  | product : PrimFn
deriving DecidableEq

/-- Arity of a primitive: 1 for all but `product`, which consumes two
linear combinations. -/
def PrimFn.arity : PrimFn → ℕ
  | PrimFn.product => 2
  | _ => 1

/-- The catalogue built in `Benchmark.__init__` (benchmark_l0.py lines
54-62): 2 constants, 4 identities, 4 squares, 2 sines, 2 exponentials,
2 sigmoids, 2 products. -/
def activation_funcs : List PrimFn :=
  List.replicate 2 PrimFn.constant ++ List.replicate 4 PrimFn.identity
    ++ List.replicate 4 PrimFn.square ++ List.replicate 2 PrimFn.sin
    ++ List.replicate 2 PrimFn.exp ++ List.replicate 2 PrimFn.sigmoid
    ++ List.replicate 2 PrimFn.product

/-- Modelled from the spec: `functions.count_double` (in `utils/functions.py`,
outside this file's source) counts how many catalogue entries have arity 2. -/
def count_double (funcs : List PrimFn) : ℕ :=
  (funcs.filter (fun f => f.arity == 2)).length

/-- The shapes of the `initial_weights` list passed to `SymbolicNetL0` at
benchmark_l0.py lines 148-154.  The matrices themselves are random draws
(`torch.fmod(torch.normal(...), 2)`); only their shapes are modelled.  The
list is hard-coded to four matrices — first `(x_dim, width + n_double)`,
two middle `(width, width + n_double)`, last `(width, 1)` — independent of
`n_layers`. -/
def initial_weights (x_dim width n_double : ℕ) : List (ℕ × ℕ) :=
  [(x_dim, width + n_double), (width, width + n_double),
    (width, width + n_double), (width, 1)]

/-- Modelled from the spec: the weight-matrix shapes that `SymbolicNetL0`
(in `utils/symbolic_network.py`, outside this file's source) requires:
one matrix per layer — the first hidden layer `(in_dim, width + n_binary)`,
each further hidden layer `(width, width + n_binary)`, and the final linear
layer `(width, 1)` — for `n_layers ≥ 1` hidden layers. -/
def expected_shapes (n_layers in_dim width n_binary : ℕ) : List (ℕ × ℕ) :=
  [(in_dim, width + n_binary)]
    ++ List.replicate (n_layers - 1) (width, width + n_binary)
    ++ [(width, 1)]

/-- Modelled from the spec: `SymbolicNetL0` construction succeeds exactly
when the supplied initial weight shapes match the expected ones ("shapes
must match exactly or construction fails"). -/
def symbolicNetL0Ok (n_layers in_dim : ℕ) (funcs : List PrimFn)
    (ws : List (ℕ × ℕ)) : Bool :=
  decide (ws = expected_shapes n_layers in_dim funcs.length (count_double funcs))

/-- The construction call at benchmark_l0.py lines 147-154: `in_dim` is
hard-coded to `1`, the catalogue is `self.activation_funcs`, `width` and
`n_double` are computed from it (lines 131-132), and the initial-weight
list is the four-matrix list above. -/
def net_construction (n_layers x_dim : ℕ) : Bool :=
  symbolicNetL0Ok n_layers 1 activation_funcs
    (initial_weights x_dim activation_funcs.length (count_double activation_funcs))

/-- Helper: the construction call of `Benchmark.train` passes the
spec-modelled shape check exactly when `n_layers = 3` and `x_dim = 1`. -/
theorem net_construction_iff (n_layers x_dim : ℕ) :
    net_construction n_layers x_dim = true ↔ n_layers = 3 ∧ x_dim = 1 := by
  constructor
  · intro h
    unfold net_construction symbolicNetL0Ok at h
    have heq : initial_weights x_dim 18 2 = expected_shapes n_layers 1 18 2 :=
      of_decide_eq_true h
    have hlen := congrArg List.length heq
    have h4 : (initial_weights x_dim 18 2).length = 4 := rfl
    have hexp : (expected_shapes n_layers 1 18 2).length = n_layers - 1 + 2 := by
      simp [expected_shapes]
    rw [h4, hexp] at hlen
    have hn : n_layers = 3 := by omega
    subst hn
    have hstep : expected_shapes 3 1 18 2
        = [(1, 20), (18, 20), (18, 20), (18, 1)] := rfl
    rw [hstep] at heq
    simp [initial_weights] at heq
    exact ⟨rfl, heq⟩
  · rintro ⟨rfl, rfl⟩
    decide

/-- C3 counterexample: at the default configuration `n_layers = 2` the
claim fails — `Benchmark.train` passes four initial weight matrices, not
`n_layers + 1 = 3` (one per layer), and the spec-modelled construction
rejects the list. -/
theorem c3_counterexample :
    (initial_weights 1 activation_funcs.length
      (count_double activation_funcs)).length = 4
    ∧ 2 + 1 ≠ 4
    ∧ net_construction 2 1 = false := by
  refine ⟨rfl, by decide, by decide⟩

/-- C3 amended: `Benchmark.train` always passes exactly four initial weight
matrices, of shapes `(x_dim, width + n_double)`, twice
`(width, width + n_double)`, and `(width, 1)` with `width = 18` and
`n_double = 2`, regardless of the configured `n_layers`; the spec-modelled
construction (one matrix per layer, shapes exact) accepts this list exactly
when `n_layers = 3` and `x_dim = 1` (the hard-coded `in_dim`). -/
theorem c3_amended (n_layers x_dim : ℕ) :
    (initial_weights x_dim activation_funcs.length (count_double activation_funcs)
      = [(x_dim, 20), (18, 20), (18, 20), (18, 1)])
    ∧ activation_funcs.length = 18
    ∧ count_double activation_funcs = 2
    ∧ (net_construction n_layers x_dim = true ↔ n_layers = 3 ∧ x_dim = 1) :=
  ⟨rfl, rfl, rfl, net_construction_iff n_layers x_dim⟩

/-- The boundary between data generation and network construction
(benchmark_l0.py lines 123-154): training data is generated from `func`
(whose parameter count is `x_dim`, line 128), then the net is constructed.
Modelled from the spec: a shape mismatch at construction is a fatal
`Except.error`, raised before any training epoch; the training loop itself
(abstracted as the argument `go`, which receives the generated data) is
reached only on success. -/
def train_setup (A : Type) (x_dim n_layers N : ℕ) (func : List ℚ → ℚ)
    (u : ℕ → ℕ → ℚ) (go : List (List ℚ) × List (List ℚ) → A) :
    Except String A :=
  let data := generate_data func x_dim N u (-1) 1
  if net_construction n_layers x_dim then Except.ok (go data)
  else Except.error "ConfigurationError"

/-- C8: if the input dimensionality inferred from the dataset-generating
function (`x_dim`) differs from the network's configured input width
(the hard-coded `in_dim = 1`), the spec-modelled construction fails with a
fatal error at the data/network boundary, before any training step runs —
the result is the error for every training continuation `go`. -/
theorem c8_dataset_shape_fatal (A : Type) (x_dim n_layers N : ℕ)
    (func : List ℚ → ℚ) (u : ℕ → ℕ → ℚ)
    (go : List (List ℚ) × List (List ℚ) → A) (hx : x_dim ≠ 1) :
    train_setup A x_dim n_layers N func u go
      = Except.error "ConfigurationError" := by
  have hfalse : net_construction n_layers x_dim = false := by
    rcases Bool.eq_false_or_eq_true (net_construction n_layers x_dim) with h | h
    · exact absurd ((net_construction_iff n_layers x_dim).mp h).2 hx
    · exact h
  unfold train_setup
  rw [hfalse]
  rfl

/-- Witness for C8: a two-argument function (`x_dim = 2`) with the default
`n_layers = 2`. -/
theorem c8_witness :
    (2 ≠ 1)
    ∧ train_setup (List (List ℚ) × List (List ℚ)) 2 2 0 (fun _ => 0)
        (fun _ _ => 0) (fun d => d) = Except.error "ConfigurationError" :=
  ⟨by decide, c8_dataset_shape_fatal _ 2 2 0 (fun _ => 0) (fun _ _ => 0)
    (fun d => d) (by decide)⟩

variable {W : Type}

/-- The abstract torch substrate for one constructed network, parameterized
by the weight-state type `W` (the network internals live in
`utils/symbolic_network.py` and torch, outside this file's source):
`init t` is the fresh random initialization drawn when the net is
constructed for trial `t` (line 147); `mse w` is the sampled value of
`criterion(net(inputs), labels)`; `reg w` the sampled value of
`net.get_loss()`; `bstep loss lr w` the weight state after
`loss.backward(); optimizer.step()` at learning rate `lr`; `exprOf w` the
string `pretty_print.network` produces from the weights. -/
structure TorchEnv (W : Type) where
  init : ℕ → W
  mse : W → Flt
  reg : W → Flt
  bstep : Flt → ℚ → W → W
  exprOf : W → String

/-- The hyper-parameters held by a `Benchmark` object (`__init__`,
lines 51-69).  `summary_step` is set to 1000 there. -/
structure TrainCfg where
  reg_weight : ℚ
  learning_rate : ℚ
  summary_step : ℕ
  n_epochs1 : ℕ
  n_epochs2 : ℕ
deriving DecidableEq

/-- State of the RMSprop optimizer's parameter group together with the
`MultiplicativeLR` scheduler's step counter (its `last_epoch`). -/
structure OptState where
  lr : ℚ
  last_epoch : ℕ
deriving DecidableEq

/-- Optimizer construction (lines 157-162): RMSprop is created with
`lr = self.learning_rate * 10`; the freshly built `MultiplicativeLR`
scheduler leaves that rate unchanged and starts its counter at 0. -/
def optInit (learning_rate : ℚ) : OptState :=
  { lr := learning_rate * 10, last_epoch := 0 }

/-- One `scheduler.step()` of `MultiplicativeLR` with
`lmbda = lambda epoch: 0.1 * epoch` (line 161): the counter increments to
`k` and the learning rate is multiplied by `0.1 * k` (so by `0.1` on the
first call, matching the source comment `lr /= 10`). -/
def schedStep (o : OptState) : OptState :=
  { lr := o.lr * ((o.last_epoch + 1 : ℚ) / 10), last_epoch := o.last_epoch + 1 }

/-- The mutable state of one trial's training run: current weights, the
optimizer/scheduler state, the last sampled `loss_val`, the four metric
lists declared at lines 135-138 (`error_test_list` is never appended to),
and a clock counting executed epochs (modelling `time.time()`). -/
structure RunSt (W : Type) where
  w : W
  opt : OptState
  loss_val : Flt
  error_list : List Flt
  reg_list : List Flt
  loss_list : List Flt
  error_test_list : List Flt
  clock : ℕ

/-- One epoch of either training stage (lines 174-204 and 223-249):
forward pass, `loss = mse_loss + reg_weight * reg_loss`, backward and
optimizer step; every `summary_step` epochs the three metrics are sampled
and appended, and a NaN sampled loss requests a `break` (the returned
flag). -/
def epochBody (env : TorchEnv W) (cfg : TrainCfg) (epoch : ℕ) (st : RunSt W) :
    RunSt W × Bool :=
  let mse_loss := env.mse st.w
  let reg_loss := env.reg st.w
  let loss := Flt.add mse_loss (Flt.mul (Flt.val cfg.reg_weight) reg_loss)
  let w2 := env.bstep loss st.opt.lr st.w
  if epoch % cfg.summary_step == 0 then
    let error_val := mse_loss
    let reg_val := reg_loss
    let loss_val := Flt.add error_val (Flt.mul (Flt.val cfg.reg_weight) reg_val)
    ({ st with
        w := w2
        loss_val := loss_val
        error_list := st.error_list ++ [error_val]
        reg_list := st.reg_list ++ [reg_val]
        loss_list := st.loss_list ++ [loss_val]
        clock := st.clock + 1 },
      loss_val.isNaN)
  else
    ({ st with w := w2, clock := st.clock + 1 }, false)

/-- First-stage loop (lines 173-209), running over epochs
`0 .. n_epochs1 + 2000 - 1` (`fuel` counts the remaining ones): after the
epoch body, when `epoch == 2000` (and no break occurred) the scheduler
steps once.  Returns the state and whether the loop exited via `break`. -/
def stage1Go (env : TorchEnv W) (cfg : TrainCfg) :
    ℕ → ℕ → RunSt W → RunSt W × Bool
  | 0, _, st => (st, false)
  | fuel + 1, epoch, st =>
    let p := epochBody env cfg epoch st
    if p.2 then (p.1, true)
    else
      stage1Go env cfg fuel (epoch + 1)
        (if epoch == 2000 then { p.1 with opt := schedStep p.1.opt } else p.1)

/-- Second-stage loop (lines 222-249), over epochs `0 .. n_epochs2 - 1`;
no scheduler step. -/
def stage2Go (env : TorchEnv W) (cfg : TrainCfg) :
    ℕ → ℕ → RunSt W → RunSt W × Bool
  | 0, _, st => (st, false)
  | fuel + 1, epoch, st =>
    let p := epochBody env cfg epoch st
    if p.2 then (p.1, true)
    else stage2Go env cfg fuel (epoch + 1) p.1

/-- One full body of the restart `while` loop (lines 169-251): the first
stage over `n_epochs1 + 2000` epochs, then the second stage over
`n_epochs2` epochs (run from the first stage's final state), both from
epoch 0.  Returns the final state and whether any sampled checkpoint
requested a break (i.e. was NaN). -/
def run_attempt (env : TorchEnv W) (cfg : TrainCfg) (st : RunSt W) :
    RunSt W × Bool :=
  ((stage2Go env cfg cfg.n_epochs2 0
      (stage1Go env cfg (cfg.n_epochs1 + 2000) 0 st).1).1,
    (stage1Go env cfg (cfg.n_epochs1 + 2000) 0 st).2
      || (stage2Go env cfg cfg.n_epochs2 0
          (stage1Go env cfg (cfg.n_epochs1 + 2000) 0 st).1).2)

/-- The state after one body of the restart loop. -/
def attempt (env : TorchEnv W) (cfg : TrainCfg) (st : RunSt W) : RunSt W :=
  (run_attempt env cfg st).1

/-- Unfolding of `attempt`: stage two run from stage one's final state. -/
theorem attempt_eq (env : TorchEnv W) (cfg : TrainCfg) (st : RunSt W) :
    attempt env cfg st = (stage2Go env cfg cfg.n_epochs2 0
      (stage1Go env cfg (cfg.n_epochs1 + 2000) 0 st).1).1 := rfl

/-- `n` consecutive bodies of the restart loop from a given state. -/
def iterAttempt (env : TorchEnv W) (cfg : TrainCfg) : ℕ → RunSt W → RunSt W
  | 0, st => st
  | n + 1, st => attempt env cfg (iterAttempt env cfg n st)

/-- The `while np.isnan(loss_val)` restart loop (lines 167-251), with
explicit fuel bounding how many staged attempts may run (the source has no
such bound; `none` means the fuel ran out with the loop still going).
`tot` carries `t1 - t0` of the most recently completed attempt, i.e. the
value `tot_time` receives at line 253 once the loop exits. -/
def whileLoop (env : TorchEnv W) (cfg : TrainCfg) :
    ℕ → RunSt W → ℕ → Option (RunSt W × ℕ)
  | 0, st, tot => if st.loss_val.isNaN then none else some (st, tot)
  | fuel + 1, st, tot =>
    if st.loss_val.isNaN then
      whileLoop env cfg fuel (attempt env cfg st)
        ((attempt env cfg st).clock - st.clock)
    else some (st, tot)

/-- The metric lists and clock carried across trials: they are declared
once, before the trial loop (lines 134-141), and never reset. -/
structure Carry where
  error_list : List Flt
  reg_list : List Flt
  loss_list : List Flt
  error_test_list : List Flt
  clock : ℕ

/-- The carried state at the start of `Benchmark.train` (empty lists). -/
def carry0 : Carry :=
  { error_list := [], reg_list := [], loss_list := [], error_test_list := []
    clock := 0 }

/-- Extract the carried part of a run state. -/
def carryOf (st : RunSt W) : Carry :=
  { error_list := st.error_list, reg_list := st.reg_list
    loss_list := st.loss_list, error_test_list := st.error_test_list
    clock := st.clock }

/-- The state at the start of a trial (lines 146-167): a freshly
initialized net (line 147, once per trial), a fresh optimizer and
scheduler (lines 157-162), `loss_val = np.nan` (line 167), and the metric
lists carried over unreset from previous trials. -/
def trialInit (env : TorchEnv W) (cfg : TrainCfg) (trial : ℕ) (c : Carry) :
    RunSt W :=
  { w := env.init trial
    opt := optInit cfg.learning_rate
    loss_val := Flt.nan
    error_list := c.error_list
    reg_list := c.reg_list
    loss_list := c.loss_list
    error_test_list := c.error_test_list
    clock := c.clock }

/-- The dictionary pickled for one trial (lines 262-274). -/
structure TrialRecord (W : Type) where
  weights : W
  loss_list : List Flt
  error_list : List Flt
  reg_list : List Flt
  error_test : List Flt
  expr : String
  runtime : ℕ

/-- One iteration of the trial loop (lines 143-277): build the trial's
initial state, run the restart loop, and on exit record the results
(weights, the — cumulative — metric lists, the expression string, and the
duration of the final attempt). -/
def runTrial (env : TorchEnv W) (cfg : TrainCfg) (fuel trial : ℕ)
    (c : Carry) : Option (TrialRecord W × Carry) :=
  (whileLoop env cfg fuel (trialInit env cfg trial c) 0).map (fun p =>
    ({ weights := p.1.w
       loss_list := p.1.loss_list
       error_list := p.1.error_list
       reg_list := p.1.reg_list
       error_test := p.1.error_test_list
       expr := env.exprOf p.1.w
       runtime := p.2 }, carryOf p.1))

/-- The trial loop of `Benchmark.train`, accumulating the pickled records
and `eq_list`. -/
def trainGo (env : TorchEnv W) (cfg : TrainCfg) (fuel : ℕ) :
    ℕ → ℕ → Carry → List (TrialRecord W) → List String →
    Option (List (TrialRecord W) × List String)
  | 0, _, _, recs, eqs => some (recs, eqs)
  | t + 1, idx, c, recs, eqs =>
    match runTrial env cfg fuel idx c with
    | none => none
    | some (r, c2) => trainGo env cfg fuel t (idx + 1) c2
        (recs ++ [r]) (eqs ++ [r.expr])

/-- `Benchmark.train` (lines 120-279): runs `trials` trials and returns
the per-trial pickled records together with the function's return value
`(eq_list, error_test_final)`.  `error_test_final` is the empty list: it
is initialized at line 140 and the only append (line 276) is commented
out. -/
def train (env : TorchEnv W) (cfg : TrainCfg) (fuel trials : ℕ) :
    Option (List (TrialRecord W) × List String × List Flt) :=
  (trainGo env cfg fuel trials 0 carry0 [] []).map
    (fun p => (p.1, p.2, ([] : List Flt)))

/-- Comparator modelling Python's `sorted(zip(error_test_list, expr_list))`
keyed on the error component (Python compares the tuples
lexicographically; NaN comparisons are false in Python — the tie/NaN
behaviour is immaterial here, the claims only exercise the empty list). -/
def pairLe (a b : Flt × String) : Bool :=
  match a.1, b.1 with
  | Flt.val p, Flt.val q => decide (p ≤ q)
  | _, _ => false

/-- The per-trial summary-writing loop of `Benchmark.benchmark`
(lines 116-117): for `i in range(trials)` it indexes the sorted error and
expression lists at `i`; an out-of-range index is Python's `IndexError`,
modelled by the `true` flag (returned with the lines written so far). -/
def summaryGo (srt : List (Flt × String)) :
    ℕ → ℕ → List String → List String × Bool
  | 0, _, lines => (lines, false)
  | k + 1, i, lines =>
    match srt.get? i with
    | none => (lines, true)
    | some pr => summaryGo srt k (i + 1) (lines ++ [pr.2])

/-- The post-training part of `Benchmark.benchmark` (lines 106-118): sort
the `(test error, expression)` pairs and write one summary line per trial. -/
def benchmark_summary (error_test_list : List Flt) (expr_list : List String)
    (trials : ℕ) : List String × Bool :=
  summaryGo (List.mergeSort (List.zip error_test_list expr_list) pairLe)
    trials 0 []

/-- A numerically quiet environment: sampled losses are always `0`, the
weight state is trivial. -/
def envU : TorchEnv Unit :=
  { init := fun _ => ()
    mse := fun _ => Flt.val 0
    reg := fun _ => Flt.val 0
    bstep := fun _ _ _ => ()
    exprOf := fun _ => "" }

/-- An always-diverging environment: the data-fit loss overflows to NaN at
every forward pass. -/
def envNaN : TorchEnv Unit :=
  { init := fun _ => ()
    mse := fun _ => Flt.nan
    reg := fun _ => Flt.val 0
    bstep := fun _ _ _ => ()
    exprOf := fun _ => "" }

/-- Environment for C1: the weight state is a single scalar; fresh
initialization is the (numeric) value 1; the forward pass overflows to NaN
immediately; backpropagating a NaN loss contaminates the weights with NaN
(as torch gradients do), and they are never repaired. -/
def envC1 : TorchEnv Flt :=
  { init := fun _ => Flt.val 1
    mse := fun _ => Flt.nan
    reg := fun _ => Flt.val 0
    bstep := fun loss _ w => if loss.isNaN then Flt.nan else w
    exprOf := fun _ => "" }

/-- A recording environment for C4: the weight state is the list of
learning rates the optimizer stepped with, one entry per executed epoch;
losses are always the numeric 0. -/
def envRec : TorchEnv (List ℚ) :=
  { init := fun _ => []
    mse := fun _ => Flt.val 0
    reg := fun _ => Flt.val 0
    bstep := fun _ lr w => w ++ [lr]
    exprOf := fun _ => "" }

/-- A small concrete configuration: one epoch in each stage beyond the
hard-coded 2000-epoch warmup. -/
def cfgA : TrainCfg :=
  { reg_weight := 1, learning_rate := 1, summary_step := 1000
    n_epochs1 := 1, n_epochs2 := 1 }

/-- A minimal concrete configuration: both configured epoch budgets 0, so
an attempt is exactly the hard-coded 2000 warmup epochs. -/
def cfgB : TrainCfg :=
  { reg_weight := 1, learning_rate := 1, summary_step := 1000
    n_epochs1 := 0, n_epochs2 := 0 }

/-- If an epoch's body requests a break, the sampled `loss_val` it leaves
behind is NaN (the break at lines 203-204 / 248-249 happens only on a NaN
sample). -/
theorem epochBody_break_loss (env : TorchEnv W) (cfg : TrainCfg) (e : ℕ)
    (st : RunSt W) (h : (epochBody env cfg e st).2 = true) :
    ((epochBody env cfg e st).1.loss_val).isNaN = true := by
  unfold epochBody at h ⊢
  by_cases hc : e % cfg.summary_step == 0
  · simp only [hc, if_true] at h ⊢
    exact h
  · simp only [hc, if_false, Bool.false_eq_true] at h

/-- If an epoch's body requests a break, the weights it leaves behind were
stepped with a NaN loss, so (given that backpropagating a NaN loss makes
the next forward pass NaN) the data-fit loss of the resulting weights is
NaN. -/
theorem epochBody_break_w (env : TorchEnv W) (cfg : TrainCfg)
    (H1 : ∀ L lr w0, L.isNaN = true → (env.mse (env.bstep L lr w0)).isNaN = true)
    (e : ℕ) (st : RunSt W) (h : (epochBody env cfg e st).2 = true) :
    (env.mse ((epochBody env cfg e st).1.w)).isNaN = true := by
  unfold epochBody at h ⊢
  by_cases hc : e % cfg.summary_step == 0
  · simp only [hc, if_true] at h ⊢
    exact H1 _ _ _ h
  · simp only [hc, if_false, Bool.false_eq_true] at h

/-- At a checkpoint epoch, a NaN data-fit loss forces a break. -/
theorem epochBody_mse_nan (env : TorchEnv W) (cfg : TrainCfg) (e : ℕ)
    (st : RunSt W) (hm : (env.mse st.w).isNaN = true)
    (hc : (e % cfg.summary_step == 0) = true) :
    (epochBody env cfg e st).2 = true := by
  unfold epochBody
  simp only [hc, if_true]
  exact Flt.isNaN_add_left _ _ hm

/-- If the first-stage loop exits via `break`, the final sampled loss is
NaN and (given NaN-propagating backprop) so is the data-fit loss of the
weights it leaves behind. -/
theorem stage1Go_break (env : TorchEnv W) (cfg : TrainCfg)
    (H1 : ∀ L lr w0, L.isNaN = true → (env.mse (env.bstep L lr w0)).isNaN = true) :
    ∀ fuel e st, (stage1Go env cfg fuel e st).2 = true →
      ((stage1Go env cfg fuel e st).1.loss_val).isNaN = true
      ∧ (env.mse ((stage1Go env cfg fuel e st).1.w)).isNaN = true := by
  intro fuel
  induction fuel with
  | zero =>
    intro e st h
    simp [stage1Go] at h
  | succ n ih =>
    intro e st h
    unfold stage1Go at h ⊢
    by_cases hb : (epochBody env cfg e st).2
    · simp only [hb, if_true]
      exact ⟨epochBody_break_loss env cfg e st hb, epochBody_break_w env cfg H1 e st hb⟩
    · simp only [hb, Bool.false_eq_true, if_false] at h ⊢
      exact ih _ _ h

/-- Same for the second-stage loop. -/
theorem stage2Go_break (env : TorchEnv W) (cfg : TrainCfg) :
    ∀ fuel e st, (stage2Go env cfg fuel e st).2 = true →
      ((stage2Go env cfg fuel e st).1.loss_val).isNaN = true := by
  intro fuel
  induction fuel with
  | zero =>
    intro e st h
    simp [stage2Go] at h
  | succ n ih =>
    intro e st h
    unfold stage2Go at h ⊢
    by_cases hb : (epochBody env cfg e st).2
    · simp only [hb, if_true]
      exact epochBody_break_loss env cfg e st hb
    · simp only [hb, Bool.false_eq_true, if_false] at h ⊢
      exact ih _ _ h

/-- Starting the second stage with NaN-contaminated weights (and a NaN
last sample) ends it with a NaN sampled loss: epoch 0 is a checkpoint, so
either the loop is empty (the sample stays NaN) or it breaks at once. -/
theorem stage2Go_start_nan (env : TorchEnv W) (cfg : TrainCfg) (fuel : ℕ)
    (st : RunSt W) (hm : (env.mse st.w).isNaN = true)
    (hl : (st.loss_val).isNaN = true) :
    ((stage2Go env cfg fuel 0 st).1.loss_val).isNaN = true := by
  cases fuel with
  | zero => simpa [stage2Go] using hl
  | succ n =>
    have hc : (0 % cfg.summary_step == 0) = true := by simp
    have hb : (epochBody env cfg 0 st).2 = true :=
      epochBody_mse_nan env cfg 0 st hm hc
    unfold stage2Go
    simp only [hb, if_true]
    exact epochBody_break_loss env cfg 0 st hb

/-- If any sampled checkpoint of a staged attempt was NaN (the attempt
"broke"), the attempt's final sampled loss is NaN, so the `while` guard
remains true. -/
theorem run_attempt_broke (env : TorchEnv W) (cfg : TrainCfg)
    (H1 : ∀ L lr w0, L.isNaN = true → (env.mse (env.bstep L lr w0)).isNaN = true)
    (st : RunSt W) (h : (run_attempt env cfg st).2 = true) :
    ((run_attempt env cfg st).1.loss_val).isNaN = true := by
  unfold run_attempt at h ⊢
  by_cases hb2 : (stage2Go env cfg cfg.n_epochs2 0
      (stage1Go env cfg (cfg.n_epochs1 + 2000) 0 st).1).2
  · exact stage2Go_break env cfg _ _ _ hb2
  · have hb1 : (stage1Go env cfg (cfg.n_epochs1 + 2000) 0 st).2 = true := by
      rcases Bool.or_eq_true_iff.mp (by simpa using h) with h1 | h2
      · exact h1
      · exact absurd h2 (by simp [hb2])
    have hs1 := stage1Go_break env cfg H1 _ _ _ hb1
    exact stage2Go_start_nan env cfg _ _ hs1.2 hs1.1

/-- A value returned by the restart loop always has a numeric (non-NaN)
final sampled loss: divergence is never handed to the caller. -/
theorem whileLoop_some_not_nan (env : TorchEnv W) (cfg : TrainCfg) :
    ∀ fuel st tot r, whileLoop env cfg fuel st tot = some r →
      (r.1.loss_val).isNaN = false := by
  intro fuel
  induction fuel with
  | zero =>
    intro st tot r h
    unfold whileLoop at h
    by_cases hg : st.loss_val.isNaN
    · simp [hg] at h
    · simp only [hg, Bool.false_eq_true, if_false, Option.some.injEq] at h
      rw [← h]
      simpa using hg
  | succ n ih =>
    intro st tot r h
    unfold whileLoop at h
    by_cases hg : st.loss_val.isNaN
    · simp only [hg, if_true] at h
      exact ih _ _ _ h
    · simp only [hg, Bool.false_eq_true, if_false, Option.some.injEq] at h
      rw [← h]
      simpa using hg

/-- While the guard holds, one unit of fuel runs exactly one full staged
attempt (both stages, from epoch 0). -/
theorem whileLoop_unfold_nan (env : TorchEnv W) (cfg : TrainCfg)
    (fuel : ℕ) (st : RunSt W) (tot : ℕ) (hg : (st.loss_val).isNaN = true) :
    whileLoop env cfg (fuel + 1) st tot
      = whileLoop env cfg fuel (attempt env cfg st)
          ((attempt env cfg st).clock - st.clock) := by
  have hstep : whileLoop env cfg (fuel + 1) st tot
      = if st.loss_val.isNaN then
          whileLoop env cfg fuel (attempt env cfg st)
            ((attempt env cfg st).clock - st.clock)
        else some (st, tot) := rfl
  rw [hstep, if_pos]
  exact hg

/-- After `n + 1` consecutive diverged attempts the loop is still running:
the fuel-indexed loop steps through them one body at a time. -/
theorem whileLoop_skip (env : TorchEnv W) (cfg : TrainCfg) :
    ∀ n m st tot,
      (∀ k, k ≤ n → ((iterAttempt env cfg k st).loss_val).isNaN = true) →
      whileLoop env cfg (n + 1 + m) st tot
        = whileLoop env cfg m (iterAttempt env cfg (n + 1) st)
            ((iterAttempt env cfg (n + 1) st).clock
              - (iterAttempt env cfg n st).clock) := by
  intro n
  induction n with
  | zero =>
    intro m st tot h
    have h0 : (st.loss_val).isNaN = true := h 0 (Nat.le_refl 0)
    have harith : 0 + 1 + m = m + 1 := by omega
    rw [harith, whileLoop_unfold_nan env cfg m st tot h0]
    rfl
  | succ n ih =>
    intro m st tot h
    have hstep : n + 1 + 1 + m = n + 1 + (1 + m) := by omega
    rw [hstep, ih (1 + m) st tot (fun k hk => h k (Nat.le_succ_of_le hk))]
    have hg : ((iterAttempt env cfg (n + 1) st).loss_val).isNaN = true :=
      h (n + 1) (Nat.le_refl _)
    have harith : 1 + m = m + 1 := Nat.add_comm 1 m
    rw [harith, whileLoop_unfold_nan env cfg m (iterAttempt env cfg (n + 1) st)
      ((iterAttempt env cfg (n + 1) st).clock - (iterAttempt env cfg n st).clock) hg]
    rfl

/-- C2: under NaN-propagating backprop (`H1`: stepping with a NaN loss
makes the next forward pass NaN, as torch gradients do), (i) an attempt in
which any sampled checkpoint was NaN ends with a NaN `loss_val`, so the
`while` guard stays true; (ii) while the guard is true the loop re-runs
the entire staged body — both stages from epoch 0; (iii) whatever the loop
eventually returns to the caller has a numeric final loss: the divergence
is recovered locally, never reported upward. -/
theorem c2_nan_checkpoint_restarts (env : TorchEnv W) (cfg : TrainCfg)
    (H1 : ∀ L lr w0, L.isNaN = true → (env.mse (env.bstep L lr w0)).isNaN = true) :
    (∀ st, (run_attempt env cfg st).2 = true →
        ((run_attempt env cfg st).1.loss_val).isNaN = true)
    ∧ (∀ fuel st tot, (st.loss_val).isNaN = true →
        whileLoop env cfg (fuel + 1) st tot
          = whileLoop env cfg fuel (attempt env cfg st)
              ((attempt env cfg st).clock - st.clock))
    ∧ (∀ fuel st tot r, whileLoop env cfg fuel st tot = some r →
        (r.1.loss_val).isNaN = false) :=
  ⟨fun st h => run_attempt_broke env cfg H1 st h,
    fun fuel st tot hg => whileLoop_unfold_nan env cfg fuel st tot hg,
    fun fuel st tot r h => whileLoop_some_not_nan env cfg fuel st tot r h⟩

/-- Witness for C2 in the always-diverging environment: the first attempt
breaks (its epoch-0 checkpoint is NaN), and the theorem applies. -/
theorem c2_witness :
    ((∀ L lr w0, L.isNaN = true → ((envNaN.mse (envNaN.bstep L lr w0))).isNaN = true)
      ∧ (run_attempt envNaN cfgA (trialInit envNaN cfgA 0 carry0)).2 = true)
    ∧ ((run_attempt envNaN cfgA (trialInit envNaN cfgA 0 carry0)).1.loss_val).isNaN
        = true :=
  ⟨⟨fun _ _ _ _ => rfl, by decide⟩,
    (c2_nan_checkpoint_restarts envNaN cfgA (fun _ _ _ _ => rfl)).1
      (trialInit envNaN cfgA 0 carry0) (by decide)⟩

/-- C7: the restart loop has no retry cap — (i) it hands a result back
only when an attempt ends with a numeric sampled loss, and (ii) after any
number `n + 1` of consecutive diverged attempts it simply runs the next
staged attempt, for every `n`. -/
theorem c7_unbounded_retry (env : TorchEnv W) (cfg : TrainCfg) :
    (∀ fuel st tot r, whileLoop env cfg fuel st tot = some r →
        (r.1.loss_val).isNaN = false)
    ∧ (∀ n m st tot,
        (∀ k, k ≤ n → ((iterAttempt env cfg k st).loss_val).isNaN = true) →
        whileLoop env cfg (n + 1 + m) st tot
          = whileLoop env cfg m (iterAttempt env cfg (n + 1) st)
              ((iterAttempt env cfg (n + 1) st).clock
                - (iterAttempt env cfg n st).clock)) :=
  ⟨fun fuel st tot r h => whileLoop_some_not_nan env cfg fuel st tot r h,
    fun n m st tot h => whileLoop_skip env cfg n m st tot h⟩

/-- Witness for C7: in the always-diverging environment the first three
attempts all end NaN, and the loop after them still runs another attempt. -/
theorem c7_witness :
    (∀ k, k ≤ 2 →
      ((iterAttempt envNaN cfgA k (trialInit envNaN cfgA 0 carry0)).loss_val).isNaN
        = true)
    ∧ whileLoop envNaN cfgA (2 + 1 + 1) (trialInit envNaN cfgA 0 carry0) 0
        = whileLoop envNaN cfgA 1
            (iterAttempt envNaN cfgA (2 + 1) (trialInit envNaN cfgA 0 carry0))
            ((iterAttempt envNaN cfgA (2 + 1) (trialInit envNaN cfgA 0 carry0)).clock
              - (iterAttempt envNaN cfgA 2 (trialInit envNaN cfgA 0 carry0)).clock) :=
  ⟨by decide,
    (c7_unbounded_retry envNaN cfgA).2 2 1 (trialInit envNaN cfgA 0 carry0) 0
      (by decide)⟩

/-- C1 (code bug): the net is constructed — and its weights freshly
initialized — once per trial at line 147, outside the restart `while`
loop.  When the very first sampled loss (epoch 0 of the first attempt) is
NaN, backprop contaminates the weights with NaN, the attempt aborts, and
the retry starts from those same NaN weights, not from a fresh
reinitialization: here the fresh initialization is the numeric 1, yet the
second attempt's starting weights are NaN, and the loop never recovers
(five units of fuel are exhausted with the loop still spinning). -/
theorem c1_code_bug :
    envC1.init 0 = Flt.val 1
    ∧ ((attempt envC1 cfgA (trialInit envC1 cfgA 0 carry0)).loss_val).isNaN = true
    ∧ (iterAttempt envC1 cfgA 1 (trialInit envC1 cfgA 0 carry0)).w = Flt.nan
    ∧ Flt.nan ≠ envC1.init 0
    ∧ whileLoop envC1 cfgA 5 (trialInit envC1 cfgA 0 carry0) 0 = none := by
  exact ⟨rfl, by decide, by decide, by decide, rfl⟩

/-- The configuration with base learning rate `b` and stage budgets
`n1`, `n2` (the `summary_step` is the hard-coded 1000 of `__init__`). -/
def cfgRec (b : ℚ) (n1 n2 : ℕ) : TrainCfg :=
  { reg_weight := 1, learning_rate := b, summary_step := 1000
    n_epochs1 := n1, n_epochs2 := n2 }

/-- In the recording environment an epoch appends the learning rate it
stepped with, never changes the optimizer, and never breaks. -/
theorem epochBody_rec (cfg : TrainCfg) (e : ℕ) (st : RunSt (List ℚ)) :
    (epochBody envRec cfg e st).1.w = st.w ++ [st.opt.lr]
    ∧ (epochBody envRec cfg e st).1.opt = st.opt
    ∧ (epochBody envRec cfg e st).2 = false := by
  unfold epochBody
  by_cases hc : e % cfg.summary_step == 0 <;>
    simp [hc, envRec, Flt.add, Flt.mul, Flt.isNaN]

/-- Unfolding one non-breaking epoch of the first-stage loop. -/
theorem stage1Go_succ (env : TorchEnv W) (cfg : TrainCfg) (fuel e : ℕ)
    (st : RunSt W) (hb : (epochBody env cfg e st).2 = false) :
    stage1Go env cfg (fuel + 1) e st
      = stage1Go env cfg fuel (e + 1)
          (if e == 2000 then
            { (epochBody env cfg e st).1 with
                opt := schedStep (epochBody env cfg e st).1.opt }
           else (epochBody env cfg e st).1) := by
  have h0 : stage1Go env cfg (fuel + 1) e st
      = if (epochBody env cfg e st).2 then ((epochBody env cfg e st).1, true)
        else stage1Go env cfg fuel (e + 1)
          (if e == 2000 then
            { (epochBody env cfg e st).1 with
                opt := schedStep (epochBody env cfg e st).1.opt }
           else (epochBody env cfg e st).1) := rfl
  rw [h0]
  simp only [hb, Bool.false_eq_true, if_false]

/-- Unfolding one non-breaking epoch of the second-stage loop. -/
theorem stage2Go_succ (env : TorchEnv W) (cfg : TrainCfg) (fuel e : ℕ)
    (st : RunSt W) (hb : (epochBody env cfg e st).2 = false) :
    stage2Go env cfg (fuel + 1) e st
      = stage2Go env cfg fuel (e + 1) (epochBody env cfg e st).1 := by
  have h0 : stage2Go env cfg (fuel + 1) e st
      = if (epochBody env cfg e st).2 then ((epochBody env cfg e st).1, true)
        else stage2Go env cfg fuel (e + 1) (epochBody env cfg e st).1 := rfl
  rw [h0]
  simp only [hb, Bool.false_eq_true, if_false]

/-- In the recording environment the first-stage loop splits at any fuel
boundary (it never breaks). -/
theorem stage1Go_rec_split (cfg : TrainCfg) :
    ∀ f1 f2 e st, stage1Go envRec cfg (f1 + f2) e st
      = stage1Go envRec cfg f2 (e + f1) ((stage1Go envRec cfg f1 e st).1) := by
  intro f1
  induction f1 with
  | zero =>
    intro f2 e st
    simp [stage1Go]
  | succ n ih =>
    intro f2 e st
    have hb : (epochBody envRec cfg e st).2 = false := (epochBody_rec cfg e st).2.2
    have h1 : n + 1 + f2 = (n + f2) + 1 := by omega
    rw [h1, stage1Go_succ envRec cfg (n + f2) e st hb, ih f2 (e + 1) _,
      stage1Go_succ envRec cfg n e st hb]
    have h2 : e + 1 + n = e + (n + 1) := by omega
    rw [h2]

/-- Epochs strictly before the scheduler boundary: the recorded rates grow
by one copy of the current rate per epoch and the optimizer is unchanged. -/
theorem stage1Go_rec_low (cfg : TrainCfg) :
    ∀ fuel e st, e + fuel ≤ 2000 →
      (stage1Go envRec cfg fuel e st).1.w
          = st.w ++ List.replicate fuel st.opt.lr
      ∧ (stage1Go envRec cfg fuel e st).1.opt = st.opt := by
  intro fuel
  induction fuel with
  | zero =>
    intro e st _
    simp [stage1Go]
  | succ n ih =>
    intro e st hle
    have hb : (epochBody envRec cfg e st).2 = false := (epochBody_rec cfg e st).2.2
    have hne : (e == 2000) = false := by
      have : e ≠ 2000 := by omega
      simpa using this
    rw [stage1Go_succ envRec cfg n e st hb, hne]
    simp only [Bool.false_eq_true, if_false]
    have hrec := epochBody_rec cfg e st
    have hih := ih (e + 1) (epochBody envRec cfg e st).1 (by omega)
    refine ⟨?_, ?_⟩
    · rw [hih.1, hrec.1, hrec.2.1]
      simp [List.append_assoc, List.replicate_succ]
    · rw [hih.2, hrec.2.1]

/-- Epochs strictly after the scheduler boundary: same growth, unchanged
optimizer. -/
theorem stage1Go_rec_high (cfg : TrainCfg) :
    ∀ fuel e st, 2001 ≤ e →
      (stage1Go envRec cfg fuel e st).1.w
          = st.w ++ List.replicate fuel st.opt.lr
      ∧ (stage1Go envRec cfg fuel e st).1.opt = st.opt := by
  intro fuel
  induction fuel with
  | zero =>
    intro e st _
    simp [stage1Go]
  | succ n ih =>
    intro e st hle
    have hb : (epochBody envRec cfg e st).2 = false := (epochBody_rec cfg e st).2.2
    have hne : (e == 2000) = false := by
      have : e ≠ 2000 := by omega
      simpa using this
    rw [stage1Go_succ envRec cfg n e st hb, hne]
    simp only [Bool.false_eq_true, if_false]
    have hrec := epochBody_rec cfg e st
    have hih := ih (e + 1) (epochBody envRec cfg e st).1 (by omega)
    refine ⟨?_, ?_⟩
    · rw [hih.1, hrec.1, hrec.2.1]
      simp [List.append_assoc, List.replicate_succ]
    · rw [hih.2, hrec.2.1]

/-- The single epoch at the scheduler boundary: the step still uses the
pre-decay rate, then the scheduler multiplies the rate once. -/
theorem stage1Go_rec_at2000 (cfg : TrainCfg) (st : RunSt (List ℚ)) :
    (stage1Go envRec cfg 1 2000 st).1.w = st.w ++ [st.opt.lr]
    ∧ (stage1Go envRec cfg 1 2000 st).1.opt = schedStep st.opt := by
  have hb : (epochBody envRec cfg 2000 st).2 = false :=
    (epochBody_rec cfg 2000 st).2.2
  rw [stage1Go_succ envRec cfg 0 2000 st hb]
  have hrec := epochBody_rec cfg 2000 st
  simp only [beq_self_eq_true, if_true, stage1Go]
  exact ⟨hrec.1, by rw [hrec.2.1]⟩

/-- Second stage in the recording environment: one rate per epoch,
optimizer unchanged. -/
theorem stage2Go_rec (cfg : TrainCfg) :
    ∀ fuel e st,
      (stage2Go envRec cfg fuel e st).1.w
          = st.w ++ List.replicate fuel st.opt.lr
      ∧ (stage2Go envRec cfg fuel e st).1.opt = st.opt := by
  intro fuel
  induction fuel with
  | zero =>
    intro e st
    simp [stage2Go]
  | succ n ih =>
    intro e st
    have hb : (epochBody envRec cfg e st).2 = false := (epochBody_rec cfg e st).2.2
    rw [stage2Go_succ envRec cfg n e st hb]
    have hrec := epochBody_rec cfg e st
    have hih := ih (e + 1) (epochBody envRec cfg e st).1
    refine ⟨?_, ?_⟩
    · rw [hih.1, hrec.1, hrec.2.1]
      simp [List.append_assoc, List.replicate_succ]
    · rw [hih.2, hrec.2.1]

/-- C4 counterexample: with base learning rate 1 (`cfgA`), the optimizer
created at lines 157-158 holds learning rate `1 * 10 = 10 ≠ 1` during
warmup, and the very first epoch's optimizer step already uses rate 10 —
the warmup rate is ten times the base rate, not the base rate. -/
theorem c4_counterexample :
    (trialInit envRec cfgA 0 carry0).opt.lr = 10
    ∧ ((10 : ℚ) ≠ 1)
    ∧ (epochBody envRec cfgA 0 (trialInit envRec cfgA 0 carry0)).1.w
        = [(10 : ℚ)] := by
  refine ⟨?_, by norm_num, ?_⟩
  · show (1 : ℚ) * 10 = 10
    norm_num
  · rw [(epochBody_rec cfgA 0 (trialInit envRec cfgA 0 carry0)).1]
    show ([] : List ℚ) ++ [(1 : ℚ) * 10] = [(10 : ℚ)]
    simp

/-- C4 amended: for every base rate `b` and budgets `n1 ≥ 1`, `n2`: the
optimizer starts at `b * 10`; every epoch up to and including the fixed
boundary epoch 2000 steps with rate `b * 10`; at that boundary the
scheduler multiplies the rate by `0.1` exactly once, and every later
epoch of stage one and all of stage two step with rate `b`; the attempt
executes exactly `(n1 + 2000) + n2` epochs — the stage transitions are
epoch-count thresholds, independent of the loss values. -/
theorem c4_amended (b : ℚ) (n1 n2 : ℕ) (h1 : 1 ≤ n1) :
    (optInit b).lr = b * 10
    ∧ (schedStep (optInit b)).lr = b
    ∧ (attempt envRec (cfgRec b n1 n2) (trialInit envRec (cfgRec b n1 n2) 0 carry0)).w
        = List.replicate 2001 (b * 10) ++ List.replicate ((n1 - 1) + n2) b
    ∧ ((attempt envRec (cfgRec b n1 n2)
          (trialInit envRec (cfgRec b n1 n2) 0 carry0)).w).length
        = (n1 + 2000) + n2 := by
  have hsched : (schedStep (optInit b)).lr = b := by
    simp only [schedStep, optInit]
    push_cast
    ring
  have hmain : (attempt envRec (cfgRec b n1 n2)
      (trialInit envRec (cfgRec b n1 n2) 0 carry0)).w
      = List.replicate 2001 (b * 10) ++ List.replicate ((n1 - 1) + n2) b := by
    set cfg := cfgRec b n1 n2 with hcfg
    set st0 := trialInit envRec cfg 0 carry0 with hst0
    have hfuel : cfg.n_epochs1 + 2000 = 2000 + (1 + (n1 - 1)) := by
      have : cfg.n_epochs1 = n1 := rfl
      omega
    rw [attempt_eq envRec cfg st0, hfuel,
      stage1Go_rec_split cfg 2000 (1 + (n1 - 1)) 0 st0,
      stage1Go_rec_split cfg 1 (n1 - 1) (0 + 2000) _]
    have hA := stage1Go_rec_low cfg 2000 0 st0 (by omega)
    have hw0 : st0.w = [] := rfl
    have hopt0 : st0.opt = optInit b := rfl
    have hB := stage1Go_rec_at2000 cfg (stage1Go envRec cfg 2000 0 st0).1
    have hC := stage1Go_rec_high cfg (n1 - 1) (0 + 2000 + 1)
      ((stage1Go envRec cfg 1 (0 + 2000) (stage1Go envRec cfg 2000 0 st0).1).1)
      (by omega)
    have hD := stage2Go_rec cfg cfg.n_epochs2 0
      ((stage1Go envRec cfg (n1 - 1) (0 + 2000 + 1)
        ((stage1Go envRec cfg 1 (0 + 2000) (stage1Go envRec cfg 2000 0 st0).1).1)).1)
    rw [hD.1, hC.1, hC.2]
    have h2000 : (0 : ℕ) + 2000 = 2000 := by omega
    rw [h2000]
    rw [hB.1, hB.2, hA.1, hA.2, hw0, hopt0]
    have hn2 : cfg.n_epochs2 = n2 := rfl
    rw [hn2, hsched]
    have hl : (optInit b).lr = b * 10 := rfl
    rw [hl]
    rw [List.nil_append, List.append_assoc, List.append_assoc]
    have hrep : ([b * 10] : List ℚ) ++ (List.replicate (n1 - 1) b
        ++ List.replicate n2 b) = [b * 10] ++ List.replicate ((n1 - 1) + n2) b := by
      rw [List.replicate_add]
    rw [hrep]
    have h2001 : List.replicate 2000 (b * 10) ++ ([b * 10]
        ++ List.replicate ((n1 - 1) + n2) b)
        = (List.replicate 2000 (b * 10) ++ [b * 10])
          ++ List.replicate ((n1 - 1) + n2) b := by
      rw [List.append_assoc]
    rw [h2001, ← List.replicate_succ' 2000 (b * 10)]
  refine ⟨rfl, hsched, hmain, ?_⟩
  rw [hmain]
  simp only [List.length_append, List.length_replicate]
  omega

/-- Witness for C4's amended statement at `b = 1`, `n1 = 1`, `n2 = 1`. -/
theorem c4_witness :
    (1 ≤ 1)
    ∧ ((optInit 1).lr = 1 * 10
      ∧ (schedStep (optInit 1)).lr = 1
      ∧ (attempt envRec (cfgRec 1 1 1) (trialInit envRec (cfgRec 1 1 1) 0 carry0)).w
          = List.replicate 2001 ((1 : ℚ) * 10) ++ List.replicate ((1 - 1) + 1) 1
      ∧ ((attempt envRec (cfgRec 1 1 1)
            (trialInit envRec (cfgRec 1 1 1) 0 carry0)).w).length
          = (1 + 2000) + 1) :=
  ⟨by decide, c4_amended 1 1 1 (by decide)⟩

/-- Trace invariant for C5: the recorded loss series equals, entry by
entry, the recorded fit-error series plus `reg_weight` times the recorded
penalty series. -/
def lossTraceInv (cfg : TrainCfg) (st : RunSt W) : Prop :=
  st.loss_list = List.zipWith
    (fun e r => Flt.add e (Flt.mul (Flt.val cfg.reg_weight) r))
    st.error_list st.reg_list
  ∧ st.error_list.length = st.reg_list.length

/-- One epoch preserves the trace invariant (the sampled `loss_val` at
lines 190/240 is computed by the same `error + reg_weight * reg` formula
as the training objective). -/
theorem epochBody_inv (env : TorchEnv W) (cfg : TrainCfg) (e : ℕ)
    (st : RunSt W) (h : lossTraceInv cfg st) :
    lossTraceInv cfg (epochBody env cfg e st).1 := by
  unfold epochBody
  by_cases hc : e % cfg.summary_step == 0
  · simp only [hc, if_true]
    constructor
    · show st.loss_list ++ _ = _
      rw [List.zipWith_append _ _ _ _ _ h.2, ← h.1]
      rfl
    · show (st.error_list ++ _).length = (st.reg_list ++ _).length
      simp only [List.length_append, List.length_cons, List.length_nil, h.2]
  · simpa [hc] using h

/-- The first-stage loop preserves the trace invariant. -/
theorem stage1Go_inv (env : TorchEnv W) (cfg : TrainCfg) :
    ∀ fuel e st, lossTraceInv cfg st →
      lossTraceInv cfg (stage1Go env cfg fuel e st).1 := by
  intro fuel
  induction fuel with
  | zero =>
    intro e st h
    simpa [stage1Go] using h
  | succ n ih =>
    intro e st h
    unfold stage1Go
    by_cases hb : (epochBody env cfg e st).2
    · simp only [hb, if_true]
      exact epochBody_inv env cfg e st h
    · simp only [hb, Bool.false_eq_true, if_false]
      by_cases he : e == 2000
      · simp only [he, if_true]
        exact ih _ _ (epochBody_inv env cfg e st h)
      · simp only [he, Bool.false_eq_true, if_false]
        exact ih _ _ (epochBody_inv env cfg e st h)

/-- The second-stage loop preserves the trace invariant. -/
theorem stage2Go_inv (env : TorchEnv W) (cfg : TrainCfg) :
    ∀ fuel e st, lossTraceInv cfg st →
      lossTraceInv cfg (stage2Go env cfg fuel e st).1 := by
  intro fuel
  induction fuel with
  | zero =>
    intro e st h
    simpa [stage2Go] using h
  | succ n ih =>
    intro e st h
    unfold stage2Go
    by_cases hb : (epochBody env cfg e st).2
    · simp only [hb, if_true]
      exact epochBody_inv env cfg e st h
    · simp only [hb, Bool.false_eq_true, if_false]
      exact ih _ _ (epochBody_inv env cfg e st h)

/-- C5: (i) at every epoch of either stage, the weights are stepped by
backpropagating exactly `mse(w) + reg_weight * penalty(w)` — the combined
objective built at lines 180-182 / 230-232 — and (ii) every checkpoint
record produced by a staged attempt satisfies
`loss = error + reg_weight * reg`, entry by entry. -/
theorem c5_objective (env : TorchEnv W) (cfg : TrainCfg) :
    (∀ e st, (epochBody env cfg e st).1.w
        = env.bstep
            (Flt.add (env.mse st.w)
              (Flt.mul (Flt.val cfg.reg_weight) (env.reg st.w)))
            st.opt.lr st.w)
    ∧ (∀ st, lossTraceInv cfg st →
        lossTraceInv cfg ((run_attempt env cfg st).1)) := by
  constructor
  · intro e st
    unfold epochBody
    by_cases hc : e % cfg.summary_step == 0 <;> simp [hc]
  · intro st h
    unfold run_attempt
    exact stage2Go_inv env cfg _ _ _ (stage1Go_inv env cfg _ _ _ h)

/-- Witness for C5: the invariant holds for the empty trace of a fresh
trial state and is preserved across its first staged attempt. -/
theorem c5_witness :
    lossTraceInv cfgA (trialInit envNaN cfgA 0 carry0)
    ∧ lossTraceInv cfgA
        ((run_attempt envNaN cfgA (trialInit envNaN cfgA 0 carry0)).1) :=
  ⟨⟨rfl, rfl⟩, (c5_objective envNaN cfgA).2 _ ⟨rfl, rfl⟩⟩

/-- Extension order on run states: the second state's metric lists extend
the first's. -/
def runExtends (a b : RunSt W) : Prop :=
  (∃ t, b.error_list = a.error_list ++ t)
  ∧ (∃ t, b.reg_list = a.reg_list ++ t)
  ∧ (∃ t, b.loss_list = a.loss_list ++ t)

theorem runExtends_refl (a : RunSt W) : runExtends a a :=
  ⟨⟨[], by simp⟩, ⟨[], by simp⟩, ⟨[], by simp⟩⟩

theorem runExtends_trans (a b c : RunSt W) (h1 : runExtends a b)
    (h2 : runExtends b c) : runExtends a c := by
  obtain ⟨⟨t1, ht1⟩, ⟨t2, ht2⟩, ⟨t3, ht3⟩⟩ := h1
  obtain ⟨⟨s1, hs1⟩, ⟨s2, hs2⟩, ⟨s3, hs3⟩⟩ := h2
  exact ⟨⟨t1 ++ s1, by rw [hs1, ht1, List.append_assoc]⟩,
    ⟨t2 ++ s2, by rw [hs2, ht2, List.append_assoc]⟩,
    ⟨t3 ++ s3, by rw [hs3, ht3, List.append_assoc]⟩⟩

/-- An epoch only appends to the metric lists. -/
theorem epochBody_ext (env : TorchEnv W) (cfg : TrainCfg) (e : ℕ)
    (st : RunSt W) : runExtends st (epochBody env cfg e st).1 := by
  unfold epochBody
  by_cases hc : e % cfg.summary_step == 0
  · simp only [hc, if_true]
    exact ⟨⟨_, rfl⟩, ⟨_, rfl⟩, ⟨_, rfl⟩⟩
  · simp only [hc, Bool.false_eq_true, if_false]
    exact runExtends_refl st

/-- The first-stage loop only appends to the metric lists. -/
theorem stage1Go_ext (env : TorchEnv W) (cfg : TrainCfg) :
    ∀ fuel e st, runExtends st (stage1Go env cfg fuel e st).1 := by
  intro fuel
  induction fuel with
  | zero =>
    intro e st
    simpa [stage1Go] using runExtends_refl st
  | succ n ih =>
    intro e st
    unfold stage1Go
    by_cases hb : (epochBody env cfg e st).2
    · simp only [hb, if_true]
      exact epochBody_ext env cfg e st
    · simp only [hb, Bool.false_eq_true, if_false]
      by_cases he : e == 2000 <;> simp only [he, if_true, Bool.false_eq_true, if_false]
      · exact runExtends_trans _ _ _ (epochBody_ext env cfg e st) (ih _ _)
      · exact runExtends_trans _ _ _ (epochBody_ext env cfg e st) (ih _ _)

/-- The second-stage loop only appends to the metric lists. -/
theorem stage2Go_ext (env : TorchEnv W) (cfg : TrainCfg) :
    ∀ fuel e st, runExtends st (stage2Go env cfg fuel e st).1 := by
  intro fuel
  induction fuel with
  | zero =>
    intro e st
    simpa [stage2Go] using runExtends_refl st
  | succ n ih =>
    intro e st
    unfold stage2Go
    by_cases hb : (epochBody env cfg e st).2
    · simp only [hb, if_true]
      exact epochBody_ext env cfg e st
    · simp only [hb, Bool.false_eq_true, if_false]
      exact runExtends_trans _ _ _ (epochBody_ext env cfg e st) (ih _ _)

/-- A staged attempt only appends to the metric lists. -/
theorem attempt_ext (env : TorchEnv W) (cfg : TrainCfg) (st : RunSt W) :
    runExtends st (attempt env cfg st) := by
  unfold attempt run_attempt
  exact runExtends_trans _ _ _ (stage1Go_ext env cfg _ _ _) (stage2Go_ext env cfg _ _ _)

/-- The restart loop only appends to the metric lists. -/
theorem whileLoop_ext (env : TorchEnv W) (cfg : TrainCfg) :
    ∀ fuel st tot r, whileLoop env cfg fuel st tot = some r →
      runExtends st r.1 := by
  intro fuel
  induction fuel with
  | zero =>
    intro st tot r h
    unfold whileLoop at h
    by_cases hg : st.loss_val.isNaN
    · simp [hg] at h
    · simp only [hg, Bool.false_eq_true, if_false, Option.some.injEq] at h
      rw [← h]
      exact runExtends_refl st
  | succ n ih =>
    intro st tot r h
    unfold whileLoop at h
    by_cases hg : st.loss_val.isNaN
    · simp only [hg, if_true] at h
      exact runExtends_trans _ _ _ (attempt_ext env cfg st) (ih _ _ _ h)
    · simp only [hg, Bool.false_eq_true, if_false, Option.some.injEq] at h
      rw [← h]
      exact runExtends_refl st

/-- What one trial's saved record contains relative to the carried lists:
its metric lists extend the carried ones (they are not reset), the next
trial's carry keeps exactly the record's lists, and the saved expression
string is extracted from the saved weights. -/
theorem runTrial_spec (env : TorchEnv W) (cfg : TrainCfg) (fuel trial : ℕ)
    (c : Carry) (r : TrialRecord W) (c2 : Carry)
    (h : runTrial env cfg fuel trial c = some (r, c2)) :
    (∃ t, r.error_list = c.error_list ++ t)
    ∧ (∃ t, r.reg_list = c.reg_list ++ t)
    ∧ (∃ t, r.loss_list = c.loss_list ++ t)
    ∧ c2.error_list = r.error_list
    ∧ c2.reg_list = r.reg_list
    ∧ c2.loss_list = r.loss_list
    ∧ r.expr = env.exprOf r.weights := by
  unfold runTrial at h
  cases hw : whileLoop env cfg fuel (trialInit env cfg trial c) 0 with
  | none =>
    rw [hw] at h
    simp at h
  | some p =>
    rw [hw] at h
    simp only [Option.map_some'] at h
    have hrec : ({ weights := p.1.w
                   loss_list := p.1.loss_list
                   error_list := p.1.error_list
                   reg_list := p.1.reg_list
                   error_test := p.1.error_test_list
                   expr := env.exprOf p.1.w
                   runtime := p.2 } : TrialRecord W) = r :=
      congrArg Prod.fst (Option.some.inj h)
    have hcar : carryOf p.1 = c2 := congrArg Prod.snd (Option.some.inj h)
    subst hrec
    subst hcar
    obtain ⟨⟨t1, ht1⟩, ⟨t2, ht2⟩, ⟨t3, ht3⟩⟩ :=
      whileLoop_ext env cfg fuel (trialInit env cfg trial c) 0 p hw
    exact ⟨⟨t1, ht1⟩, ⟨t2, ht2⟩, ⟨t3, ht3⟩, rfl, rfl, rfl, rfl⟩

/-- Extension order on saved trial records: the second record's metric
lists extend the first's. -/
def recExtends (a b : TrialRecord W) : Prop :=
  (∃ t, b.error_list = a.error_list ++ t)
  ∧ (∃ t, b.reg_list = a.reg_list ++ t)
  ∧ (∃ t, b.loss_list = a.loss_list ++ t)

/-- The trial loop produces a chain of records each of whose metric lists
extends the previous record's, and every record's expression string comes
from its own weights. -/
theorem trainGo_chain (env : TorchEnv W) (cfg : TrainCfg) (fuel : ℕ) :
    ∀ t idx c recs eqs res,
      trainGo env cfg fuel t idx c recs eqs = some res →
      List.Chain' recExtends recs →
      (∀ rl, recs.getLast? = some rl →
        rl.error_list = c.error_list ∧ rl.reg_list = c.reg_list
          ∧ rl.loss_list = c.loss_list) →
      (∀ r ∈ recs, r.expr = env.exprOf r.weights) →
      List.Chain' recExtends res.1
      ∧ (∀ r ∈ res.1, r.expr = env.exprOf r.weights) := by
  intro t
  induction t with
  | zero =>
    intro idx c recs eqs res h hchain hlast hexpr
    unfold trainGo at h
    rw [← Option.some.inj h]
    exact ⟨hchain, hexpr⟩
  | succ n ih =>
    intro idx c recs eqs res h hchain hlast hexpr
    unfold trainGo at h
    cases hrt : runTrial env cfg fuel idx c with
    | none =>
      rw [hrt] at h
      simp at h
    | some rc =>
      rw [hrt] at h
      obtain ⟨r, c2⟩ := rc
      have hspec := runTrial_spec env cfg fuel idx c r c2 hrt
      refine ih (idx + 1) c2 (recs ++ [r]) (eqs ++ [r.expr]) res h ?_ ?_ ?_
      · rw [List.chain'_append]
        refine ⟨hchain, List.chain'_singleton r, ?_⟩
        intro x hx y hy
        simp only [List.head?_cons, Option.mem_def, Option.some.injEq] at hy
        subst hy
        obtain ⟨hx1, hx2, hx3⟩ := hlast x (Option.mem_def.mp hx)
        obtain ⟨⟨t1, ht1⟩, ⟨t2, ht2⟩, ⟨t3, ht3⟩, _⟩ := hspec
        exact ⟨⟨t1, by rw [ht1, hx1]⟩, ⟨t2, by rw [ht2, hx2]⟩,
          ⟨t3, by rw [ht3, hx3]⟩⟩
      · intro rl hrl
        rw [List.getLast?_concat] at hrl
        have hr : r = rl := Option.some.inj hrl
        subst hr
        exact ⟨hspec.2.2.2.1.symm, hspec.2.2.2.2.1.symm, hspec.2.2.2.2.2.1.symm⟩
      · intro x hx
        rcases List.mem_append.mp hx with hmem | hmem
        · exact hexpr x hmem
        · have hxr : x = r := by simpa using hmem
          subst hxr
          exact hspec.2.2.2.2.2.2

/-- C6 amended: when `Benchmark.train` returns, each saved trial record's
expression string is extracted from that record's own final weights, but
the saved metric time-series are cumulative: every trial's saved
`error_list`/`reg_list`/`loss_list` extends the previous trial's saved
lists (the lists are created once, before the trial loop, and never
reset), so a trial's file contains all entries since training began, not
only its own. -/
theorem c6_amended (env : TorchEnv W) (cfg : TrainCfg) (fuel trials : ℕ) :
    match train env cfg fuel trials with
    | none => True
    | some res =>
        List.Chain' recExtends res.1
        ∧ (∀ r ∈ res.1, r.expr = env.exprOf r.weights) := by
  cases htr : train env cfg fuel trials with
  | none => trivial
  | some res =>
    unfold train at htr
    cases hgo : trainGo env cfg fuel trials 0 carry0 [] [] with
    | none =>
      rw [hgo] at htr
      simp at htr
    | some p =>
      rw [hgo] at htr
      simp only [Option.map_some'] at htr
      have h1 : p.1 = res.1 := congrArg Prod.fst (Option.some.inj htr)
      have hmain := trainGo_chain env cfg fuel trials 0 carry0 [] [] p hgo
        List.chain'_nil (fun rl hrl => by simp at hrl) (fun r hr => by simp at hr)
      rw [h1] at hmain
      exact hmain

/-- C6 counterexample: two trials in the quiet environment with both stage
budgets 0 (an attempt is the 2000 hard-coded warmup epochs, sampling at
epochs 0 and 1000).  Trial 0's saved `error_list` has its own 2 entries,
but trial 1's saved `error_list` has 4 entries — it contains trial 0's
samples as well, so the saved time-series is not that trial's own data. -/
theorem c6_counterexample :
    (train envU cfgB 1 2).map (fun res => res.1.map (fun r => r.error_list.length))
      = some [2, 4]
    ∧ 4 ≠ 2 := by
  exact ⟨by decide, by decide⟩

/-- C9: whenever `Benchmark.train` returns, its second result
(`error_test_final`) is the empty list — nothing is ever appended to it —
so for any `trials ≥ 1` the summary loop of `Benchmark.benchmark` hits an
out-of-range index at `i = 0` (Python's `IndexError`) before writing any
per-trial line. -/
theorem c9_summary_index_error (env : TorchEnv W) (cfg : TrainCfg)
    (fuel trials : ℕ) (h : 1 ≤ trials) :
    match train env cfg fuel trials with
    | none => True
    | some res =>
        res.2.2 = []
        ∧ benchmark_summary res.2.2 res.2.1 trials = ([], true) := by
  cases htr : train env cfg fuel trials with
  | none => trivial
  | some res =>
    have hres : res.2.2 = [] := by
      unfold train at htr
      cases hgo : trainGo env cfg fuel trials 0 carry0 [] [] with
      | none =>
        rw [hgo] at htr
        simp at htr
      | some p =>
        rw [hgo] at htr
        simp only [Option.map_some'] at htr
        have := Option.some.inj htr
        rw [← this]
    refine ⟨hres, ?_⟩
    rw [hres]
    unfold benchmark_summary
    rw [List.zip_nil_left, List.mergeSort_nil]
    obtain ⟨k, rfl⟩ : ∃ k, trials = k + 1 := ⟨trials - 1, by omega⟩
    rfl

/-- Witness for C9: one trial in the quiet environment; training
terminates, returns an empty `error_test_final`, and the summary loop
raises the index error with no per-trial line written. -/
theorem c9_witness :
    (1 ≤ 1)
    ∧ (train envU cfgB 1 1).isSome = true
    ∧ (match train envU cfgB 1 1 with
        | none => True
        | some res =>
            res.2.2 = []
            ∧ benchmark_summary res.2.2 res.2.1 1 = ([], true)) :=
  ⟨by decide, by decide, c9_summary_index_error envU cfgB 1 1 (by decide)⟩

end BenchmarkL0
